import Mathlib

/-!
Shallow embedding of `build_files/utils/make_update.py` ("make update" helper):
the script checks for the `git` and `svn` executables, detects a release
branch via `re.search("^blender-v(.*)-release$", branch)`, optionally
synchronizes precompiled libraries from svn, and updates the git repository
and submodules.  The script's observable behaviour is modelled as a trace of
events (stdout lines, stderr writes, external command invocations) together
with a process exit code, parameterized by an environment describing the
results of every external query the script makes.
-/

namespace MakeUpdate

/-- Observable events of one run: a line printed to stdout, a string written
to stderr, an external command run through the `call` helper, and the
`subprocess.check_output` invocation used for branch detection. -/
inductive Event where
  | stdoutLine (s : String)
  | stderrMsg (s : String)
  | call (args : List String)
  | checkOutput (args : List String)
deriving DecidableEq, Repr

abbrev Trace := List Event

/-- Model of `sys.platform` as the script distinguishes it: `darwin`, `win32`, or
anything else (Linux etc.). -/
inductive Platform where
  | darwin
  | win32
  | other
deriving DecidableEq, Repr

/-- Parsed command-line arguments (`--only-code`, `--git-command`,
`--svn-command`). -/
structure Config where
  only_code : Bool
  git_command : String
  svn_command : String
deriving Repr

/-- The environment a run observes: which executables resolve via
`shutil.which`, the raw output of `git rev-parse --abbrev-ref HEAD` (`none`
models `CalledProcessError`), the platform, `os.path.exists`,
`os.path.isdir`, `os.listdir` on the libraries root, and whether each
external command invoked through `call` exits with status zero. -/
structure Env where
  whichOk : String → Bool
  gitBranch : Option String
  platform : Platform
  existsPath : String → Bool
  isdirPath : String → Bool
  listdir : String → List String
  callOk : List String → Bool

/-- Python's `bytes.strip` / `str.strip` whitespace set (ASCII). -/
def pyWhite (c : Char) : Bool :=
  c == ' ' || c == '\t' || c == '\n' || c == '\r' || c == '\x0b' || c == '\x0c'

/-- Python `s.strip()`: drop leading and trailing whitespace. -/
def pyStrip (s : String) : String :=
  String.mk (((s.data.dropWhile pyWhite).reverse.dropWhile pyWhite).reverse)

/-- Match a literal pattern at the front of a character list, returning the
remainder on success. -/
def matchFront : List Char → List Char → Option (List Char)
  | [], cs => some cs
  | _ :: _, [] => none
  | p :: ps, c :: cs => if p = c then matchFront ps cs else none

/-- Match a literal pattern at the back of a character list, returning the
remainder on success. -/
def matchBack (pat cs : List Char) : Option (List Char) :=
  (matchFront pat.reverse cs.reverse).map List.reverse

/-- Model of `re.search("^blender-v(.*)-release$", branch)`, returning
`group(1)` on a match.  `^` anchors at the start, `$` matches at the end or
just before one final newline, and `.` does not match a newline, so the
pattern matches exactly when the string (after removing at most one trailing
newline) is the literal head `blender-v`, then a newline-free middle (the
captured group), then the literal tail `-release`; the anchored head and
tail make the capture unique, so greediness plays no role. -/
def reSearchRelease (branch : String) : Option String :=
  (matchFront ("blender-v".data)
      (if branch.data.getLast? = some '\n' then branch.data.dropLast
       else branch.data)).bind fun afterHead =>
    (matchBack ("-release".data) afterHead).bind fun mid =>
      if '\n' ∈ mid then none else some (String.mk mid)

/-- Python truthiness of the script's `release_version` variable after the
detection block: it is either `None` or the captured string, and a string is
truthy exactly when nonempty. -/
def truthyStr : Option String → Bool
  | none => false
  | some v => v != ""

/-- Events of the detection block: on a match the script prints
`"Using Release Blender v" + release_version`. -/
def detectEvents : Option String → Trace
  | some v => [Event.stdoutLine ("Using Release Blender v" ++ v)]
  | none => []

/-- Model of `os.path.join` with POSIX separators (path contents are only ever
compared as opaque strings by the model). -/
def pathJoin (a b : String) : String := a ++ "/" ++ b

/-- The libraries root `lib_dirpath = os.path.join('..', 'lib')`. -/
def lib_dirpath : String := pathJoin ".." "lib"

/-- The fixed artifact-repository base URL. -/
def svn_base_url : String := "https://svn.blender.org/svnroot/bf-blender/"

/-- The artifact branch `svn_branch`: `tags/blender-<v>-release` when `release_version` is
truthy, else `trunk`. -/
def svn_branch (release_version : Option String) : String :=
  if truthyStr release_version then
    "tags/blender-" ++ release_version.getD "" ++ "-release"
  else
    "trunk"

/-- The composed `svn_url = base + svn_branch + "/lib/"`. -/
def svn_url (release_version : Option String) : String :=
  svn_base_url ++ svn_branch release_version ++ "/lib/"

/-- The platform-specific precompiled-libraries directory name (`None` for
Linux and other platforms). -/
def lib_platform : Platform → Option String
  | Platform.darwin => some "darwin"
  | Platform.win32 => some "win64_vc14"
  | Platform.other => none

/-- Stage banner `print_stage(text)`: an empty line, the text, an empty line. -/
def print_stage (t : Trace) (text : String) : Trace :=
  t ++ [Event.stdoutLine "", Event.stdoutLine text, Event.stdoutLine ""]

/-- Modelled from the spec: the invocation helper `make_utils.call` is not
part of the sources here (only `make_update.py` is); per the spec it
"executes an external command with given argument list, streams its output,
and raises/aborts the whole program on non-zero exit status".  The event is
recorded, and a non-zero exit aborts the run with exit code 1. -/
def callStep (env : Env) (t : Trace) (args : List String) :
    Except (Trace × Nat) Trace :=
  if env.callOk args then Except.ok (t ++ [Event.call args])
  else Except.error (t ++ [Event.call args], 1)

/-- The per-directory update loop over `os.listdir(lib_dirpath)`: skip
`.svn`; for a directory that has its own `.svn` or whose root has `.svn`,
run `svn cleanup`, `svn switch <url><name>`, `svn update`. -/
def libLoop (cfg : Config) (env : Env) (url : String) :
    Trace → List String → Except (Trace × Nat) Trace
  | t, [] => Except.ok t
  | t, dirname :: rest =>
    if dirname = ".svn" then libLoop cfg env url t rest
    else
      let dirpath := pathJoin lib_dirpath dirname
      let svn_dirpath := pathJoin dirpath ".svn"
      let svn_root_dirpath := pathJoin lib_dirpath ".svn"
      if env.isdirPath dirpath
          && (env.existsPath svn_dirpath || env.existsPath svn_root_dirpath) then do
        let t ← callStep env t [cfg.svn_command, "cleanup", dirpath]
        let t ← callStep env t [cfg.svn_command, "switch", url ++ dirname, dirpath]
        let t ← callStep env t [cfg.svn_command, "update", dirpath]
        libLoop cfg env url t rest
      else libLoop cfg env url t rest

/-- The "Updating Precompiled Libraries and Tests" banner followed by the
directory enumeration, which runs only when the libraries root is a
directory. -/
def libEnum (cfg : Config) (env : Env) (release_version : Option String)
    (t : Trace) : Except (Trace × Nat) Trace :=
  let t := print_stage t "Updating Precompiled Libraries and Tests"
  if env.isdirPath lib_dirpath then
    libLoop cfg env (svn_url release_version) t (env.listdir lib_dirpath)
  else
    Except.ok t

/-- The whole `if not only_code:` block: fresh platform checkout when the
platform directory is missing, then the library enumeration. -/
def libSync (cfg : Config) (env : Env) (release_version : Option String)
    (t : Trace) : Except (Trace × Nat) Trace := do
  let t ←
    match lib_platform env.platform with
    | some lp =>
      let lib_platform_dirpath := pathJoin lib_dirpath lp
      if env.existsPath lib_platform_dirpath then Except.ok t
      else
        callStep env (print_stage t "Checking out Precompiled Libraries")
          [cfg.svn_command, "checkout", svn_url release_version ++ lp,
            lib_platform_dirpath]
    | none => Except.ok t
  libEnum cfg env release_version t

/-- The final stage: banner, `git pull --rebase`, recursive submodule
update, and — when `release_version` is falsy — the two
`git submodule foreach` commands. -/
def gitUpdate (cfg : Config) (env : Env) (release_version : Option String)
    (t : Trace) : Except (Trace × Nat) Trace := do
  let t := print_stage t "Updating Blender Git Repository and Submodules"
  let t ← callStep env t [cfg.git_command, "pull", "--rebase"]
  let t ← callStep env t
    [cfg.git_command, "submodule", "update", "--init", "--recursive"]
  if truthyStr release_version then Except.ok t
  else do
    let t ← callStep env t
      [cfg.git_command, "submodule", "foreach", "git", "checkout", "master"]
    callStep env t
      [cfg.git_command, "submodule", "foreach", "git", "pull", "--rebase",
        "origin", "master"]

/-- The branch-detection command line. -/
def revParseArgs (cfg : Config) : List String :=
  [cfg.git_command, "rev-parse", "--abbrev-ref", "HEAD"]

/-- The whole script as an `Except` computation: tool checks, branch
detection, optional library synchronization, repository update.  An
`Except.error` carries the trace so far and the non-zero exit code. -/
def make_update_run (cfg : Config) (env : Env) :
    Except (Trace × Nat) Trace :=
  if env.whichOk cfg.git_command = false then
    Except.error ([Event.stderrMsg "git not found, can't update code\n"], 1)
  else if env.whichOk cfg.svn_command = false then
    Except.error
      ([Event.stderrMsg "svn not found, can't update libraries\n"], 1)
  else
    let t : Trace := [Event.checkOutput (revParseArgs cfg)]
    match env.gitBranch with
    | none =>
      Except.error (t ++ [Event.stderrMsg "Failed to get Blender git branch\n"], 1)
    | some raw =>
      let branch := pyStrip raw
      let release_version := reSearchRelease branch
      let t := t ++ detectEvents release_version
      ((if cfg.only_code then Except.ok t
        else libSync cfg env release_version t).bind
        fun t => gitUpdate cfg env release_version t)

/-- The run's trace and process exit code (0 on success, 1 on any failure). -/
def make_update (cfg : Config) (env : Env) : Trace × Nat :=
  match make_update_run cfg env with
  | Except.ok t => (t, 0)
  | Except.error r => r

/-! ## Helper lemmas -/

set_option maxRecDepth 8192

theorem getLast?_mem_of_eq_some {l : List Char} {a : Char}
    (h : l.getLast? = some a) : a ∈ l := by
  induction l with
  | nil => simp at h
  | cons b l ih =>
    cases l with
    | nil => simp_all
    | cons c l =>
      rw [List.getLast?_cons_cons] at h
      exact List.mem_cons_of_mem _ (ih h)

theorem matchFront_eq_some (p : List Char) :
    ∀ (cs r : List Char), matchFront p cs = some r ↔ cs = p ++ r := by
  induction p with
  | nil => intro cs r; simp [matchFront]
  | cons a ps ih =>
    intro cs r
    cases cs with
    | nil => simp [matchFront]
    | cons c cs =>
      by_cases h : a = c
      · subst h
        simp [matchFront, ih]
      · simp only [matchFront, if_neg h]
        constructor
        · intro hc; cases hc
        · intro hc
          injection hc with h1 _
          exact absurd h1.symm h

theorem matchBack_eq_some (pat cs r : List Char) :
    matchBack pat cs = some r ↔ cs = r ++ pat := by
  unfold matchBack
  rw [Option.map_eq_some']
  constructor
  · rintro ⟨r0, h1, rfl⟩
    have h2 : cs.reverse = pat.reverse ++ r0 := (matchFront_eq_some _ _ _).mp h1
    have h3 : cs = (pat.reverse ++ r0).reverse := by
      rw [← h2, List.reverse_reverse]
    simpa [List.reverse_append] using h3
  · rintro rfl
    refine ⟨r.reverse, ?_, by simp⟩
    rw [matchFront_eq_some]
    simp [List.reverse_append]

theorem reSearchRelease_eq_some_iff (branch v : String)
    (h : '\n' ∉ branch.data) :
    reSearchRelease branch = some v ↔
      branch = "blender-v" ++ v ++ "-release" := by
  have hlast : ¬ branch.data.getLast? = some '\n' := by
    intro hl; exact h (getLast?_mem_of_eq_some hl)
  have hdata : ∀ w : String,
      branch = "blender-v" ++ w ++ "-release" ↔
        branch.data = "blender-v".data ++ (w.data ++ "-release".data) := by
    intro w
    rw [String.ext_iff]
    simp [String.data_append, List.append_assoc]
  unfold reSearchRelease
  rw [if_neg hlast]
  constructor
  · intro hv
    rcases Option.bind_eq_some.mp hv with ⟨afterHead, hmf, hv2⟩
    rcases Option.bind_eq_some.mp hv2 with ⟨mid, hmb, hv3⟩
    have hmidn : '\n' ∉ mid := by
      intro hm
      rw [if_pos hm] at hv3
      cases hv3
    rw [if_neg hmidn] at hv3
    injection hv3 with hv3
    subst hv3
    have hcs : branch.data = "blender-v".data ++ afterHead :=
      (matchFront_eq_some _ _ _).mp hmf
    have hr1 : afterHead = mid ++ "-release".data :=
      (matchBack_eq_some _ _ _).mp hmb
    rw [hdata, hcs, hr1]
  · intro heq
    have h2 : branch.data = "blender-v".data ++ (v.data ++ "-release".data) :=
      (hdata v).mp heq
    have hmidn : '\n' ∉ v.data := by
      intro hm
      apply h
      rw [h2]
      exact List.mem_append_right _ (List.mem_append_left _ hm)
    apply Option.bind_eq_some.mpr
    refine ⟨v.data ++ "-release".data,
      (matchFront_eq_some _ _ _).mpr h2, ?_⟩
    apply Option.bind_eq_some.mpr
    refine ⟨v.data, (matchBack_eq_some _ _ _).mpr rfl, ?_⟩
    rw [if_neg hmidn]

theorem ok_bind {ε α β : Type} (x : α) (f : α → Except ε β) :
    (Except.ok x >>= f : Except ε β) = f x := rfl

theorem error_bind {ε α β : Type} (e : ε) (f : α → Except ε β) :
    (Except.error e >>= f : Except ε β) = Except.error e := rfl

theorem bind_ok_expl {ε α β : Type} (x : α) (f : α → Except ε β) :
    Except.bind (Except.ok x) f = f x := rfl

theorem bind_error_expl {ε α β : Type} (e : ε) (f : α → Except ε β) :
    Except.bind (Except.error e) f = Except.error e := rfl

theorem bind_eq_bind {ε α β : Type} (x : Except ε α) (f : α → Except ε β) :
    Except.bind x f = x >>= f := rfl

theorem callStep_ok_of {env : Env} {args : List String}
    (h : env.callOk args = true) (t : Trace) :
    callStep env t args = Except.ok (t ++ [Event.call args]) := by
  simp [callStep, h]

/-- The condition under which the library loop operates on an entry: not the
`.svn` metadata entry, a directory, and itself svn-tracked or under an
svn-tracked root. -/
def libEntryPred (env : Env) (dirname : String) : Bool :=
  dirname != ".svn"
    && (env.isdirPath (pathJoin lib_dirpath dirname)
      && (env.existsPath (pathJoin (pathJoin lib_dirpath dirname) ".svn")
        || env.existsPath (pathJoin lib_dirpath ".svn")))

/-- The three svn operations the loop runs on a qualifying entry, in
order: cleanup, switch to `<url><name>`, update. -/
def libEntryOps (cfg : Config) (url : String) (dirname : String) : Trace :=
  [Event.call [cfg.svn_command, "cleanup", pathJoin lib_dirpath dirname],
   Event.call [cfg.svn_command, "switch", url ++ dirname,
     pathJoin lib_dirpath dirname],
   Event.call [cfg.svn_command, "update", pathJoin lib_dirpath dirname]]

/-- The events the library loop is specified to produce: the three
operations for each qualifying entry in enumeration order, nothing for the
others. -/
def expectedLibOps (cfg : Config) (env : Env) (url : String) :
    List String → Trace
  | [] => []
  | d :: ds =>
    (if libEntryPred env d then libEntryOps cfg url d else [])
      ++ expectedLibOps cfg env url ds

theorem libLoop_ok_trace (cfg : Config) (env : Env) (url : String)
    (hok : ∀ args, env.callOk args = true) :
    ∀ (ds : List String) (t : Trace),
      libLoop cfg env url t ds =
        Except.ok (t ++ expectedLibOps cfg env url ds) := by
  intro ds
  induction ds with
  | nil => intro t; simp [libLoop, expectedLibOps]
  | cons d ds ih =>
    intro t
    by_cases hd : d = ".svn"
    · subst hd
      simp [libLoop, expectedLibOps, libEntryPred, ih]
    · by_cases hp : (env.isdirPath (pathJoin lib_dirpath d)
          && (env.existsPath (pathJoin (pathJoin lib_dirpath d) ".svn")
            || env.existsPath (pathJoin lib_dirpath ".svn"))) = true
      · have hne : (d != ".svn") = true := by
          simp [bne_iff_ne, hd]
        have hcond : (d != ".svn"
            && (env.isdirPath (pathJoin lib_dirpath d)
              && (env.existsPath (pathJoin (pathJoin lib_dirpath d) ".svn")
                || env.existsPath (pathJoin lib_dirpath ".svn")))) = true := by
          simp [hne, hp]
        simp only [libLoop, if_neg hd, if_pos hp, callStep_ok_of (hok _),
          ok_bind, ih, expectedLibOps, libEntryPred]
        rw [if_pos hcond]
        simp [libEntryOps, List.append_assoc]
      · have hcond : ¬ (d != ".svn"
            && (env.isdirPath (pathJoin lib_dirpath d)
              && (env.existsPath (pathJoin (pathJoin lib_dirpath d) ".svn")
                || env.existsPath (pathJoin lib_dirpath ".svn")))) = true := by
          simp [hp]
        simp only [libLoop, if_neg hd, if_neg hp, ih, expectedLibOps,
          libEntryPred]
        rw [if_neg hcond]
        simp

/-- The events of the final repository-update stage on full success. -/
def gitTailOps (cfg : Config) (release_version : Option String) : Trace :=
  [Event.stdoutLine "",
   Event.stdoutLine "Updating Blender Git Repository and Submodules",
   Event.stdoutLine "",
   Event.call [cfg.git_command, "pull", "--rebase"],
   Event.call [cfg.git_command, "submodule", "update", "--init", "--recursive"]]
    ++ (if truthyStr release_version then []
        else
          [Event.call
            [cfg.git_command, "submodule", "foreach", "git", "checkout",
              "master"],
           Event.call
            [cfg.git_command, "submodule", "foreach", "git", "pull",
              "--rebase", "origin", "master"]])

theorem gitUpdate_ok_trace (cfg : Config) (env : Env)
    (release_version : Option String) (t : Trace)
    (hok : ∀ args, env.callOk args = true) :
    gitUpdate cfg env release_version t =
      Except.ok (t ++ gitTailOps cfg release_version) := by
  cases htr : truthyStr release_version with
  | true =>
    simp only [gitUpdate, print_stage, callStep_ok_of (hok _), ok_bind, htr,
      if_pos rfl, gitTailOps]
    simp [List.append_assoc]
  | false =>
    simp only [gitUpdate, print_stage, callStep_ok_of (hok _), ok_bind, htr,
      gitTailOps]
    simp [List.append_assoc]

/-- The events of the platform-checkout step on full success. -/
def checkoutExt (cfg : Config) (env : Env)
    (release_version : Option String) : Trace :=
  match lib_platform env.platform with
  | some lp =>
    if env.existsPath (pathJoin lib_dirpath lp) then []
    else
      [Event.stdoutLine "",
       Event.stdoutLine "Checking out Precompiled Libraries",
       Event.stdoutLine "",
       Event.call
        [cfg.svn_command, "checkout", svn_url release_version ++ lp,
          pathJoin lib_dirpath lp]]
  | none => []

/-- The events of the whole library-synchronization stage on full success. -/
def libSyncExt (cfg : Config) (env : Env)
    (release_version : Option String) : Trace :=
  checkoutExt cfg env release_version
    ++ [Event.stdoutLine "",
        Event.stdoutLine "Updating Precompiled Libraries and Tests",
        Event.stdoutLine ""]
    ++ (if env.isdirPath lib_dirpath then
          expectedLibOps cfg env (svn_url release_version)
            (env.listdir lib_dirpath)
        else [])

theorem libEnum_ok_trace (cfg : Config) (env : Env)
    (release_version : Option String) (t : Trace)
    (hok : ∀ args, env.callOk args = true) :
    libEnum cfg env release_version t =
      Except.ok (t
        ++ [Event.stdoutLine "",
            Event.stdoutLine "Updating Precompiled Libraries and Tests",
            Event.stdoutLine ""]
        ++ (if env.isdirPath lib_dirpath then
              expectedLibOps cfg env (svn_url release_version)
                (env.listdir lib_dirpath)
            else [])) := by
  by_cases hdir : env.isdirPath lib_dirpath = true
  · simp [libEnum, print_stage, hdir, libLoop_ok_trace cfg env _ hok]
  · simp [libEnum, print_stage, hdir]

theorem libSync_ok_trace (cfg : Config) (env : Env)
    (release_version : Option String) (t : Trace)
    (hok : ∀ args, env.callOk args = true) :
    libSync cfg env release_version t =
      Except.ok (t ++ libSyncExt cfg env release_version) := by
  cases hpf : env.platform with
  | darwin =>
    by_cases hex : env.existsPath (pathJoin lib_dirpath "darwin") = true
    · simp [libSync, lib_platform, hpf, hex, ok_bind, bind_ok_expl,
        libEnum_ok_trace _ _ _ _ hok, libSyncExt, checkoutExt,
        List.append_assoc]
    · simp [libSync, lib_platform, hpf, hex, print_stage,
        callStep_ok_of (hok _), ok_bind, libEnum_ok_trace _ _ _ _ hok,
        libSyncExt, checkoutExt, List.append_assoc]
  | win32 =>
    by_cases hex : env.existsPath (pathJoin lib_dirpath "win64_vc14") = true
    · simp [libSync, lib_platform, hpf, hex, ok_bind, bind_ok_expl,
        libEnum_ok_trace _ _ _ _ hok, libSyncExt, checkoutExt,
        List.append_assoc]
    · simp [libSync, lib_platform, hpf, hex, print_stage,
        callStep_ok_of (hok _), ok_bind, libEnum_ok_trace _ _ _ _ hok,
        libSyncExt, checkoutExt, List.append_assoc]
  | other =>
    simp [libSync, lib_platform, hpf, ok_bind, bind_ok_expl,
      libEnum_ok_trace _ _ _ _ hok, libSyncExt, checkoutExt,
      List.append_assoc]

/-- The full trace of a maximally successful run. -/
def fullOkTrace (cfg : Config) (env : Env) (raw : String) : Trace :=
  let release_version := reSearchRelease (pyStrip raw)
  [Event.checkOutput (revParseArgs cfg)]
    ++ detectEvents release_version
    ++ (if cfg.only_code then [] else libSyncExt cfg env release_version)
    ++ gitTailOps cfg release_version

theorem make_update_ok_trace (cfg : Config) (env : Env) (raw : String)
    (hgit : env.whichOk cfg.git_command = true)
    (hsvn : env.whichOk cfg.svn_command = true)
    (hbr : env.gitBranch = some raw)
    (hok : ∀ args, env.callOk args = true) :
    make_update cfg env = (fullOkTrace cfg env raw, 0) := by
  cases hoc : cfg.only_code with
  | true =>
    simp [make_update, make_update_run, hgit, hsvn, hbr, hoc, ok_bind,
      bind_ok_expl, gitUpdate_ok_trace _ _ _ _ hok, fullOkTrace,
      List.append_assoc]
  | false =>
    simp [make_update, make_update_run, hgit, hsvn, hbr, hoc,
      libSync_ok_trace _ _ _ _ hok, ok_bind, bind_ok_expl,
      gitUpdate_ok_trace _ _ _ _ hok, fullOkTrace, List.append_assoc]

/-! ## Abort behaviour machinery -/

/-- Every call event in the trace exited with status zero. -/
def callsOk (env : Env) (t : Trace) : Prop :=
  ∀ args, Event.call args ∈ t → env.callOk args = true

/-- Every call event in the trace has arguments satisfying `S`. -/
def callsIn (S : List String → Prop) (t : Trace) : Prop :=
  ∀ args, Event.call args ∈ t → S args

/-- A trace produced up to a possible abort: either all its calls succeeded,
or it ends at its first failing call, with every earlier call successful. -/
def abortedTail (env : Env) (t : Trace) : Prop :=
  callsOk env t ∨
    ∃ t0 args, t = t0 ++ [Event.call args] ∧ callsOk env t0 ∧
      env.callOk args = false

theorem callsOk_append {env : Env} {a b : Trace}
    (h1 : callsOk env a) (h2 : callsOk env b) : callsOk env (a ++ b) := by
  intro args hm
  rcases List.mem_append.mp hm with hm | hm
  exacts [h1 _ hm, h2 _ hm]

theorem callsIn_append {S : List String → Prop} {a b : Trace}
    (h1 : callsIn S a) (h2 : callsIn S b) : callsIn S (a ++ b) := by
  intro args hm
  rcases List.mem_append.mp hm with hm | hm
  exacts [h1 _ hm, h2 _ hm]

theorem abortedTail_append {env : Env} {a b : Trace}
    (h1 : callsOk env a) (h2 : abortedTail env b) :
    abortedTail env (a ++ b) := by
  rcases h2 with h2 | ⟨t0, args, rfl, hc0, hcf⟩
  · exact Or.inl (callsOk_append h1 h2)
  · exact Or.inr ⟨a ++ t0, args, by rw [List.append_assoc],
      callsOk_append h1 hc0, hcf⟩

theorem abortedTail_last {env : Env} {t : Trace} {args : List String}
    (h : abortedTail env t) (hm : Event.call args ∈ t)
    (hf : env.callOk args = false) :
    t.getLast? = some (Event.call args) := by
  rcases h with h | ⟨t0, a, rfl, hc0, hcf⟩
  · rw [h _ hm] at hf
    cases hf
  · rcases List.mem_append.mp hm with hm2 | hm2
    · rw [hc0 _ hm2] at hf
      cases hf
    · have he : Event.call args = Event.call a := List.mem_singleton.mp hm2
      injection he with he
      subst he
      rw [List.getLast?_append_cons]
      rfl

/-- Specification of one stage of the script: it appends an extension to the
incoming trace; on success every appended call succeeded; on failure the
exit code is 1 and the appended part is an aborted tail.  All appended calls
satisfy `S`. -/
def StageSpec (env : Env) (S : List String → Prop)
    (f : Trace → Except (Trace × Nat) Trace) : Prop :=
  ∀ t : Trace,
    (∀ t2, f t = Except.ok t2 →
      ∃ ext, t2 = t ++ ext ∧ callsOk env ext ∧ callsIn S ext) ∧
    (∀ r, f t = Except.error r →
      r.2 = 1 ∧ ∃ ext, r.1 = t ++ ext ∧ abortedTail env ext ∧ callsIn S ext)

theorem stageSpec_ret (env : Env) (S : List String → Prop) :
    StageSpec env S (fun t => Except.ok t) := by
  intro t
  constructor
  · intro t2 h2
    injection h2 with h2
    refine ⟨[], by rw [← h2, List.append_nil], ?_, ?_⟩
    · intro args hm; cases hm
    · intro args hm; cases hm
  · intro r h2
    cases h2

theorem stageSpec_congr {env : Env} {S : List String → Prop}
    {f g : Trace → Except (Trace × Nat) Trace}
    (h : ∀ t, f t = g t) (hg : StageSpec env S g) : StageSpec env S f := by
  intro t
  constructor
  · intro t2 h2
    exact (hg t).1 t2 ((h t).symm.trans h2)
  · intro r h2
    exact (hg t).2 r ((h t).symm.trans h2)

theorem stageSpec_callStep (env : Env) (S : List String → Prop)
    (args : List String) (hS : S args) :
    StageSpec env S (fun t => callStep env t args) := by
  intro t
  constructor
  · intro t2 h2
    simp only [] at h2
    unfold callStep at h2
    by_cases hc : env.callOk args = true
    · rw [if_pos hc] at h2
      injection h2 with h2
      refine ⟨[Event.call args], h2.symm, ?_, ?_⟩
      · intro a hm
        have he := List.mem_singleton.mp hm
        injection he with he
        subst he
        exact hc
      · intro a hm
        have he := List.mem_singleton.mp hm
        injection he with he
        subst he
        exact hS
    · rw [if_neg hc] at h2
      cases h2
  · intro r h2
    simp only [] at h2
    unfold callStep at h2
    by_cases hc : env.callOk args = true
    · rw [if_pos hc] at h2
      cases h2
    · rw [if_neg hc] at h2
      injection h2 with h2
      subst h2
      refine ⟨rfl, [Event.call args], rfl, ?_, ?_⟩
      · refine Or.inr ⟨[], args, by simp, ?_, ?_⟩
        · intro a hm
          cases hm
        · simpa using hc
      · intro a hm
        have he := List.mem_singleton.mp hm
        injection he with he
        subst he
        exact hS

theorem stageSpec_comp {env : Env} {S : List String → Prop}
    {f g : Trace → Except (Trace × Nat) Trace}
    (hf : StageSpec env S f) (hg : StageSpec env S g) :
    StageSpec env S (fun t => f t >>= g) := by
  intro t
  constructor
  · intro t2 h2
    simp only [] at h2
    cases hft : f t with
    | ok t1 =>
      rw [hft, ok_bind] at h2
      obtain ⟨e1, rfl, hc1, hs1⟩ := (hf t).1 t1 hft
      obtain ⟨e2, rfl, hc2, hs2⟩ := (hg _).1 t2 h2
      exact ⟨e1 ++ e2, List.append_assoc t e1 e2,
        callsOk_append hc1 hc2, callsIn_append hs1 hs2⟩
    | error r0 =>
      rw [hft, error_bind] at h2
      cases h2
  · intro r h2
    simp only [] at h2
    cases hft : f t with
    | ok t1 =>
      rw [hft, ok_bind] at h2
      obtain ⟨e1, rfl, hc1, hs1⟩ := (hf t).1 t1 hft
      obtain ⟨hn, e2, hr, ha2, hs2⟩ := (hg _).2 r h2
      exact ⟨hn, e1 ++ e2, by rw [hr, List.append_assoc],
        abortedTail_append hc1 ha2, callsIn_append hs1 hs2⟩
    | error r0 =>
      rw [hft, error_bind] at h2
      injection h2 with h2
      subst h2
      exact (hf t).2 r0 hft

theorem stageSpec_precomp {env : Env} {S : List String → Prop}
    {f : Trace → Except (Trace × Nat) Trace}
    (hf : StageSpec env S f) (g : Trace → Trace)
    (hg : ∀ t, ∃ e, g t = t ++ e ∧ callsOk env e ∧ callsIn S e) :
    StageSpec env S (fun t => f (g t)) := by
  intro t
  obtain ⟨e0, he0, hc0, hs0⟩ := hg t
  constructor
  · intro t2 h2
    simp only [] at h2
    rw [he0] at h2
    obtain ⟨e, rfl, hc, hs⟩ := (hf _).1 t2 h2
    exact ⟨e0 ++ e, List.append_assoc t e0 e,
      callsOk_append hc0 hc, callsIn_append hs0 hs⟩
  · intro r h2
    simp only [] at h2
    rw [he0] at h2
    obtain ⟨hn, e, hr, ha, hs⟩ := (hf _).2 r h2
    exact ⟨hn, e0 ++ e, by rw [hr, List.append_assoc],
      abortedTail_append hc0 ha, callsIn_append hs0 hs⟩

theorem print_stage_ext (env : Env) (S : List String → Prop) (text : String) :
    ∀ t, ∃ e, print_stage t text = t ++ e ∧ callsOk env e ∧ callsIn S e := by
  intro t
  refine ⟨[Event.stdoutLine "", Event.stdoutLine text, Event.stdoutLine ""],
    rfl, ?_, ?_⟩
  · intro args hm
    simp at hm
  · intro args hm
    simp at hm

/-- The four git command lines the repository-update stage can invoke. -/
def gitCalls (cfg : Config) : List (List String) :=
  [[cfg.git_command, "pull", "--rebase"],
   [cfg.git_command, "submodule", "update", "--init", "--recursive"],
   [cfg.git_command, "submodule", "foreach", "git", "checkout", "master"],
   [cfg.git_command, "submodule", "foreach", "git", "pull", "--rebase",
     "origin", "master"]]

theorem stageSpec_gitUpdate (cfg : Config) (env : Env) (rv : Option String)
    (S : List String → Prop) (hS : ∀ args, args ∈ gitCalls cfg → S args) :
    StageSpec env S (fun t => gitUpdate cfg env rv t) := by
  have h1 := stageSpec_callStep env S [cfg.git_command, "pull", "--rebase"]
    (hS _ (by simp [gitCalls]))
  have h2 := stageSpec_callStep env S
    [cfg.git_command, "submodule", "update", "--init", "--recursive"]
    (hS _ (by simp [gitCalls]))
  have h3 := stageSpec_callStep env S
    [cfg.git_command, "submodule", "foreach", "git", "checkout", "master"]
    (hS _ (by simp [gitCalls]))
  have h4 := stageSpec_callStep env S
    [cfg.git_command, "submodule", "foreach", "git", "pull", "--rebase",
      "origin", "master"]
    (hS _ (by simp [gitCalls]))
  have hif : StageSpec env S (fun t =>
      if truthyStr rv = true then Except.ok t
      else
        (callStep env t
            [cfg.git_command, "submodule", "foreach", "git", "checkout",
              "master"] >>= fun t =>
          callStep env t
            [cfg.git_command, "submodule", "foreach", "git", "pull",
              "--rebase", "origin", "master"])) := by
    cases htr : truthyStr rv with
    | true =>
      refine stageSpec_congr (fun t => ?_) (stageSpec_ret env S)
      rw [if_pos rfl]
    | false =>
      refine stageSpec_congr (fun t => ?_) (stageSpec_comp h3 h4)
      rw [if_neg (by simp)]
  have hpre : StageSpec env S (fun t =>
      callStep env
        (print_stage t "Updating Blender Git Repository and Submodules")
        [cfg.git_command, "pull", "--rebase"]) :=
    stageSpec_precomp h1 (fun t => print_stage t _) (print_stage_ext env S _)
  have hcomp := stageSpec_comp hpre (stageSpec_comp h2 hif)
  exact stageSpec_congr (fun t => rfl) hcomp

theorem stageSpec_libLoop (cfg : Config) (env : Env) (url : String)
    (S : List String → Prop) (hSall : ∀ args, S args) :
    ∀ ds, StageSpec env S (fun t => libLoop cfg env url t ds) := by
  intro ds
  induction ds with
  | nil => exact stageSpec_congr (fun t => rfl) (stageSpec_ret env S)
  | cons d ds ih =>
    by_cases hd : d = ".svn"
    · refine stageSpec_congr (fun t => ?_) ih
      simp only [libLoop, if_pos hd]
    · by_cases hp : (env.isdirPath (pathJoin lib_dirpath d)
          && (env.existsPath (pathJoin (pathJoin lib_dirpath d) ".svn")
            || env.existsPath (pathJoin lib_dirpath ".svn"))) = true
      · have hstage := stageSpec_comp
          (stageSpec_callStep env S
            [cfg.svn_command, "cleanup", pathJoin lib_dirpath d] (hSall _))
          (stageSpec_comp
            (stageSpec_callStep env S
              [cfg.svn_command, "switch", url ++ d, pathJoin lib_dirpath d]
              (hSall _))
            (stageSpec_comp
              (stageSpec_callStep env S
                [cfg.svn_command, "update", pathJoin lib_dirpath d]
                (hSall _))
              ih))
        refine stageSpec_congr (fun t => ?_) hstage
        simp only [libLoop, if_neg hd, if_pos hp]
      · refine stageSpec_congr (fun t => ?_) ih
        simp only [libLoop, if_neg hd, if_neg hp]

theorem stageSpec_libEnum (cfg : Config) (env : Env) (rv : Option String)
    (S : List String → Prop) (hSall : ∀ args, S args) :
    StageSpec env S (fun t => libEnum cfg env rv t) := by
  by_cases hdir : env.isdirPath lib_dirpath = true
  · refine stageSpec_congr (fun t => ?_)
      (stageSpec_precomp
        (stageSpec_libLoop cfg env (svn_url rv) S hSall
          (env.listdir lib_dirpath))
        (fun t => print_stage t "Updating Precompiled Libraries and Tests")
        (print_stage_ext env S _))
    simp only [libEnum, if_pos hdir]
  · refine stageSpec_congr (fun t => ?_)
      (stageSpec_precomp (stageSpec_ret env S)
        (fun t => print_stage t "Updating Precompiled Libraries and Tests")
        (print_stage_ext env S _))
    simp only [libEnum, if_neg hdir]

theorem stageSpec_libSync (cfg : Config) (env : Env) (rv : Option String)
    (S : List String → Prop) (hSall : ∀ args, S args) :
    StageSpec env S (fun t => libSync cfg env rv t) := by
  have henum := stageSpec_libEnum cfg env rv S hSall
  cases hpf : env.platform with
  | other =>
    refine stageSpec_congr (fun t => ?_)
      (stageSpec_comp (stageSpec_ret env S) henum)
    simp only [libSync, lib_platform, hpf]
  | darwin =>
    by_cases hex : env.existsPath (pathJoin lib_dirpath "darwin") = true
    · refine stageSpec_congr (fun t => ?_)
        (stageSpec_comp (stageSpec_ret env S) henum)
      simp only [libSync, lib_platform, hpf, if_pos hex]
    · refine stageSpec_congr (fun t => ?_)
        (stageSpec_comp
          (stageSpec_precomp
            (stageSpec_callStep env S
              [cfg.svn_command, "checkout", svn_url rv ++ "darwin",
                pathJoin lib_dirpath "darwin"] (hSall _))
            (fun t => print_stage t "Checking out Precompiled Libraries")
            (print_stage_ext env S _))
          henum)
      simp only [libSync, lib_platform, hpf, if_neg hex]
  | win32 =>
    by_cases hex : env.existsPath (pathJoin lib_dirpath "win64_vc14") = true
    · refine stageSpec_congr (fun t => ?_)
        (stageSpec_comp (stageSpec_ret env S) henum)
      simp only [libSync, lib_platform, hpf, if_pos hex]
    · refine stageSpec_congr (fun t => ?_)
        (stageSpec_comp
          (stageSpec_precomp
            (stageSpec_callStep env S
              [cfg.svn_command, "checkout", svn_url rv ++ "win64_vc14",
                pathJoin lib_dirpath "win64_vc14"] (hSall _))
            (fun t => print_stage t "Checking out Precompiled Libraries")
            (print_stage_ext env S _))
          henum)
      simp only [libSync, lib_platform, hpf, if_neg hex]

theorem detect_no_call (rv : Option String) (args : List String) :
    Event.call args ∉ detectEvents rv := by
  cases rv <;> simp [detectEvents]

theorem make_update_run_git_missing {cfg : Config} {env : Env}
    (hg : env.whichOk cfg.git_command = false) :
    make_update_run cfg env =
      Except.error ([Event.stderrMsg "git not found, can't update code\n"], 1) := by
  unfold make_update_run
  rw [if_pos hg]

theorem make_update_run_svn_missing {cfg : Config} {env : Env}
    (hg : ¬ env.whichOk cfg.git_command = false)
    (hs : env.whichOk cfg.svn_command = false) :
    make_update_run cfg env =
      Except.error
        ([Event.stderrMsg "svn not found, can't update libraries\n"], 1) := by
  unfold make_update_run
  rw [if_neg hg, if_pos hs]

theorem make_update_run_branch_fail {cfg : Config} {env : Env}
    (hg : ¬ env.whichOk cfg.git_command = false)
    (hs : ¬ env.whichOk cfg.svn_command = false)
    (hbr : env.gitBranch = none) :
    make_update_run cfg env =
      Except.error
        ([Event.checkOutput (revParseArgs cfg),
          Event.stderrMsg "Failed to get Blender git branch\n"], 1) := by
  unfold make_update_run
  rw [if_neg hg, if_neg hs, hbr]
  rfl

theorem make_update_run_main {cfg : Config} {env : Env} {raw : String}
    (hg : ¬ env.whichOk cfg.git_command = false)
    (hs : ¬ env.whichOk cfg.svn_command = false)
    (hbr : env.gitBranch = some raw) :
    make_update_run cfg env =
      ((if cfg.only_code = true then
          Except.ok ([Event.checkOutput (revParseArgs cfg)]
            ++ detectEvents (reSearchRelease (pyStrip raw)))
        else
          libSync cfg env (reSearchRelease (pyStrip raw))
            ([Event.checkOutput (revParseArgs cfg)]
              ++ detectEvents (reSearchRelease (pyStrip raw)))).bind
        fun t => gitUpdate cfg env (reSearchRelease (pyStrip raw)) t) := by
  unfold make_update_run
  rw [if_neg hg, if_neg hs, hbr]

theorem make_update_total (cfg : Config) (env : Env)
    (S : List String → Prop)
    (hstage : ∀ rv, StageSpec env S (fun t =>
      (if cfg.only_code = true then Except.ok t
       else libSync cfg env rv t).bind
        fun t => gitUpdate cfg env rv t)) :
    ((make_update cfg env).2 = 0 ∧ callsOk env (make_update cfg env).1
      ∧ callsIn S (make_update cfg env).1) ∨
    ((make_update cfg env).2 = 1 ∧ abortedTail env (make_update cfg env).1
      ∧ callsIn S (make_update cfg env).1) := by
  by_cases hg : env.whichOk cfg.git_command = false
  · unfold make_update
    rw [make_update_run_git_missing hg]
    right
    refine ⟨rfl, Or.inl ?_, ?_⟩ <;> intro args hm <;> simp at hm
  · by_cases hs : env.whichOk cfg.svn_command = false
    · unfold make_update
      rw [make_update_run_svn_missing hg hs]
      right
      refine ⟨rfl, Or.inl ?_, ?_⟩ <;> intro args hm <;> simp at hm
    · cases hbr : env.gitBranch with
      | none =>
        unfold make_update
        rw [make_update_run_branch_fail hg hs hbr]
        right
        refine ⟨rfl, Or.inl ?_, ?_⟩ <;> intro args hm <;> simp at hm
      | some raw =>
        unfold make_update
        rw [make_update_run_main hg hs hbr]
        have ht0ok : callsOk env
            ([Event.checkOutput (revParseArgs cfg)]
              ++ detectEvents (reSearchRelease (pyStrip raw))) := by
          intro args hm
          rcases List.mem_append.mp hm with hm | hm
          · simp at hm
          · exact absurd hm (detect_no_call _ _)
        have ht0in : callsIn S
            ([Event.checkOutput (revParseArgs cfg)]
              ++ detectEvents (reSearchRelease (pyStrip raw))) := by
          intro args hm
          rcases List.mem_append.mp hm with hm | hm
          · simp at hm
          · exact absurd hm (detect_no_call _ _)
        cases hres : ((if cfg.only_code = true then
              Except.ok ([Event.checkOutput (revParseArgs cfg)]
                ++ detectEvents (reSearchRelease (pyStrip raw)))
            else libSync cfg env (reSearchRelease (pyStrip raw))
              ([Event.checkOutput (revParseArgs cfg)]
                ++ detectEvents (reSearchRelease (pyStrip raw)))).bind
            fun t => gitUpdate cfg env (reSearchRelease (pyStrip raw)) t) with
        | ok t2 =>
          obtain ⟨ext, rfl, hc, hsx⟩ :=
            (hstage (reSearchRelease (pyStrip raw)) _).1 t2 hres
          left
          exact ⟨rfl, callsOk_append ht0ok hc, callsIn_append ht0in hsx⟩
        | error r =>
          obtain ⟨hn, ext, hr1, ha, hsx⟩ :=
            (hstage (reSearchRelease (pyStrip raw)) _).2 r hres
          right
          refine ⟨hn, ?_, ?_⟩
          · rw [hr1]
            exact abortedTail_append ht0ok ha
          · rw [hr1]
            exact callsIn_append ht0in hsx

/-! ## Concrete configurations and environments for witnesses -/

/-- Default configuration: `--only-code` unset, default tool names. -/
def cfgAll : Config := ⟨false, "git", "svn"⟩

/-- An environment where everything succeeds; the libraries root lists one
tracked directory `tests`, one non-directory entry `files`, and the
metadata entry `.svn`. -/
def envAll : Env where
  whichOk := fun _ => true
  gitBranch := some "main"
  platform := Platform.other
  existsPath := fun _ => true
  isdirPath := fun p => p != pathJoin lib_dirpath "files"
  listdir := fun _ => ["tests", ".svn", "files"]
  callOk := fun _ => true

/-- Configuration with a custom (absent) git command name. -/
def cfgGitx : Config := ⟨false, "gitx", "svn"⟩

/-- An environment where no executable resolves. -/
def envNoTools : Env where
  whichOk := fun _ => false
  gitBranch := none
  platform := Platform.other
  existsPath := fun _ => false
  isdirPath := fun _ => false
  listdir := fun _ => []
  callOk := fun _ => false

/-- Configuration with `--only-code` set and default tool names. -/
def cfgOnlyCode : Config := ⟨true, "git", "svn"⟩

/-- An environment where only git resolves. -/
def envGitOnly : Env where
  whichOk := fun s => s == "git"
  gitBranch := some "main"
  platform := Platform.other
  existsPath := fun _ => false
  isdirPath := fun _ => false
  listdir := fun _ => []
  callOk := fun _ => true

/-- An environment where tools resolve but every external command fails. -/
def envAllFail : Env where
  whichOk := fun _ => true
  gitBranch := some "main"
  platform := Platform.other
  existsPath := fun _ => true
  isdirPath := fun _ => true
  listdir := fun _ => []
  callOk := fun _ => false

/-- An environment with no libraries root directory. -/
def envNoLibRoot : Env where
  whichOk := fun _ => true
  gitBranch := some "main"
  platform := Platform.other
  existsPath := fun _ => false
  isdirPath := fun _ => false
  listdir := fun _ => []
  callOk := fun _ => true

/-- An environment on the release-pattern edge case `blender-v-release`. -/
def envEmptyVer : Env where
  whichOk := fun _ => true
  gitBranch := some "blender-v-release"
  platform := Platform.other
  existsPath := fun _ => true
  isdirPath := fun _ => true
  listdir := fun _ => ["tests"]
  callOk := fun _ => true

/-! ## Claims -/

/-- C1: for newline-free branch names (the only kind git can report), the
branch matches `^blender-v(.*)-release$` exactly when it is the literal
`blender-v`, then the captured version string, then `-release`; on a match
the detector returns exactly that captured string and the detection block
prints the confirmation line naming it (RELEASE classification); on no
match it returns `none` and prints nothing (DEVELOPMENT classification).
In particular "main" and "blender-v4.1-release-candidate" do not match. -/
theorem C1_release_branch_detection (branch : String)
    (h : '\n' ∉ branch.data) :
    (∀ v : String, reSearchRelease branch = some v ↔
      branch = "blender-v" ++ v ++ "-release")
    ∧ (reSearchRelease branch = none ↔
      ∀ v : String, branch ≠ "blender-v" ++ v ++ "-release")
    ∧ ∀ v : String, reSearchRelease branch = some v →
      detectEvents (reSearchRelease branch) =
        [Event.stdoutLine ("Using Release Blender v" ++ v)] := by
  refine ⟨fun v => reSearchRelease_eq_some_iff branch v h, ?_, ?_⟩
  · constructor
    · intro hn v heq
      rw [← reSearchRelease_eq_some_iff branch v h, hn] at heq
      cases heq
    · intro hall
      cases hsome : reSearchRelease branch with
      | none => rfl
      | some v =>
        exact absurd ((reSearchRelease_eq_some_iff branch v h).mp hsome)
          (hall v)
  · intro v hv
    rw [hv]
    rfl

theorem C1_release_branch_detection_witness :
    reSearchRelease "blender-v4.1-release" = some "4.1"
    ∧ reSearchRelease "main" = none
    ∧ reSearchRelease "blender-v4.1-release-candidate" = none := by
  refine ⟨?_, by decide, by decide⟩
  exact ((C1_release_branch_detection "blender-v4.1-release"
    (by decide)).1 "4.1").mpr (by decide)

/-- C2: with every external command succeeding, the library loop runs, for
each listed entry that is a directory, is not named ".svn", and either has
its own ".svn" or sits under a libraries root with ".svn", exactly the
three artifact-client operations — cleanup of the directory, switch to the
composed URL joined with the entry name, then update — in that order, and
runs nothing for any other entry (`expectedLibOps` unfolds to exactly those
three calls per qualifying entry). -/
theorem C2_library_loop_operations (cfg : Config) (env : Env) (url : String)
    (ds : List String) (t : Trace)
    (hok : ∀ args, env.callOk args = true) :
    libLoop cfg env url t ds =
      Except.ok (t ++ expectedLibOps cfg env url ds) :=
  libLoop_ok_trace cfg env url hok ds t

theorem C2_library_loop_operations_witness :
    libLoop cfgAll envAll "u/" [] ["tests", ".svn", "files"] =
      Except.ok
        [Event.call ["svn", "cleanup", "../lib/tests"],
         Event.call ["svn", "switch", "u/tests", "../lib/tests"],
         Event.call ["svn", "update", "../lib/tests"]] :=
  (C2_library_loop_operations cfgAll envAll "u/" ["tests", ".svn", "files"]
    [] (fun _ => rfl)).trans rfl

/-- C3: with every external command succeeding, the repository-update stage
always runs the banner, `git pull --rebase`, and the recursive submodule
update, and then runs the two submodule-foreach commands (force checkout of
master, then pull-with-rebase of master from origin, in that order) if and
only if the run is effectively DEVELOPMENT — i.e. the script's final
`release_version` value is falsy (no regex match, or an empty captured
version, per the `if not release_version` guard); on an effective RELEASE
run (truthy `release_version`) the two foreach commands do not appear, so
submodules stay at the revisions pinned by the submodule update. -/
theorem C3_dev_submodule_tracking (cfg : Config) (env : Env)
    (release_version : Option String) (t : Trace)
    (hok : ∀ args, env.callOk args = true) :
    gitUpdate cfg env release_version t =
      Except.ok (t
        ++ [Event.stdoutLine "",
            Event.stdoutLine "Updating Blender Git Repository and Submodules",
            Event.stdoutLine "",
            Event.call [cfg.git_command, "pull", "--rebase"],
            Event.call
              [cfg.git_command, "submodule", "update", "--init",
                "--recursive"]]
        ++ (if truthyStr release_version then []
            else
              [Event.call
                [cfg.git_command, "submodule", "foreach", "git", "checkout",
                  "master"],
               Event.call
                [cfg.git_command, "submodule", "foreach", "git", "pull",
                  "--rebase", "origin", "master"]])) := by
  rw [gitUpdate_ok_trace cfg env release_version t hok]
  simp [gitTailOps, List.append_assoc]

theorem C3_dev_submodule_tracking_witness :
    gitUpdate cfgAll envAll (some "3.6") [] =
      Except.ok
        [Event.stdoutLine "",
         Event.stdoutLine "Updating Blender Git Repository and Submodules",
         Event.stdoutLine "",
         Event.call ["git", "pull", "--rebase"],
         Event.call ["git", "submodule", "update", "--init", "--recursive"]]
    ∧ gitUpdate cfgAll envAll none [] =
      Except.ok
        [Event.stdoutLine "",
         Event.stdoutLine "Updating Blender Git Repository and Submodules",
         Event.stdoutLine "",
         Event.call ["git", "pull", "--rebase"],
         Event.call ["git", "submodule", "update", "--init", "--recursive"],
         Event.call ["git", "submodule", "foreach", "git", "checkout",
           "master"],
         Event.call ["git", "submodule", "foreach", "git", "pull",
           "--rebase", "origin", "master"]] :=
  ⟨(C3_dev_submodule_tracking cfgAll envAll (some "3.6") []
      (fun _ => rfl)).trans rfl,
   (C3_dev_submodule_tracking cfgAll envAll none []
      (fun _ => rfl)).trans rfl⟩

/-- C4: failure of any invoked sub-command halts the run at once: whenever a
call event in the final trace has a non-zero exit (per the environment), the
process exit code is 1 and that call is the final event of the trace — no
later invocations, no later stage banners; and the exit code is 0 only when
every invoked command succeeded. -/
theorem C4_halt_on_failure (cfg : Config) (env : Env) :
    ((make_update cfg env).2 = 0 →
      ∀ args, Event.call args ∈ (make_update cfg env).1 →
        env.callOk args = true)
    ∧ ∀ args, Event.call args ∈ (make_update cfg env).1 →
        env.callOk args = false →
        (make_update cfg env).2 = 1 ∧
        (make_update cfg env).1.getLast? = some (Event.call args) := by
  have hstage : ∀ rv, StageSpec env (fun _ => True) (fun t =>
      (if cfg.only_code = true then Except.ok t
       else libSync cfg env rv t).bind fun t => gitUpdate cfg env rv t) := by
    intro rv
    have hgit := stageSpec_gitUpdate cfg env rv (fun _ => True)
      (fun _ _ => trivial)
    cases hoc : cfg.only_code with
    | true =>
      refine stageSpec_congr (fun t => ?_)
        (stageSpec_comp (stageSpec_ret env _) hgit)
      simp [bind_eq_bind]
    | false =>
      refine stageSpec_congr (fun t => ?_)
        (stageSpec_comp
          (stageSpec_libSync cfg env rv _ (fun _ => trivial)) hgit)
      simp [bind_eq_bind]
  rcases make_update_total cfg env (fun _ => True) hstage with
    ⟨h0, hco, _⟩ | ⟨h1, ha, _⟩
  · refine ⟨fun _ args hm => hco args hm, ?_⟩
    intro args hm hf
    rw [hco args hm] at hf
    cases hf
  · constructor
    · intro h0
      rw [h0] at h1
      exact absurd h1 (by decide)
    · intro args hm hf
      exact ⟨h1, abortedTail_last ha hm hf⟩

theorem C4_halt_on_failure_witness :
    Event.call ["git", "pull", "--rebase"] ∈ (make_update cfgOnlyCode envAllFail).1
    ∧ envAllFail.callOk ["git", "pull", "--rebase"] = false
    ∧ (make_update cfgOnlyCode envAllFail).2 = 1
    ∧ (make_update cfgOnlyCode envAllFail).1.getLast? =
        some (Event.call ["git", "pull", "--rebase"]) := by
  have hm : Event.call ["git", "pull", "--rebase"]
      ∈ (make_update cfgOnlyCode envAllFail).1 := by decide
  have hf : envAllFail.callOk ["git", "pull", "--rebase"] = false := rfl
  have h := (C4_halt_on_failure cfgOnlyCode envAllFail).2 _ hm hf
  exact ⟨hm, hf, h.1, h.2⟩

/-- C5 counterexample: the claim says the tool-missing message names the
configured tool.  With the git command configured as "gitx" and nothing
resolvable, the program writes the fixed line "git not found, can't update
code" — the claimed line naming the configured tool ("gitx not found, can't
update code") never appears. -/
theorem C5_counterexample_fixed_tool_name :
    make_update cfgGitx envNoTools =
      ([Event.stderrMsg "git not found, can't update code\n"], 1)
    ∧ Event.stderrMsg "gitx not found, can't update code\n"
        ∉ (make_update cfgGitx envNoTools).1 := by
  exact ⟨rfl, by decide⟩

/-- C5 (amended): if the primary repository client executable is not
resolvable, the program writes the fixed message "git not found, can't
update code" (the literal default tool name, regardless of the configured
command) to standard error and exits 1; analogously, if the primary client
resolves but the artifact client does not, it writes the fixed message
"svn not found, can't update libraries" and exits 1.  In both cases the
whole trace is exactly that one stderr event, so the exit happens before
any repository or library operation and without any filesystem write. -/
theorem C5_tool_missing_messages (cfg : Config) (env : Env) :
    (env.whichOk cfg.git_command = false →
      make_update cfg env =
        ([Event.stderrMsg "git not found, can't update code\n"], 1))
    ∧ (env.whichOk cfg.git_command = true →
        env.whichOk cfg.svn_command = false →
        make_update cfg env =
          ([Event.stderrMsg "svn not found, can't update libraries\n"], 1)) := by
  constructor
  · intro hg
    unfold make_update
    rw [make_update_run_git_missing hg]
  · intro hg hs
    unfold make_update
    rw [make_update_run_svn_missing (by simp [hg]) hs]

theorem C5_tool_missing_messages_witness :
    envNoTools.whichOk cfgGitx.git_command = false
    ∧ make_update cfgGitx envNoTools =
        ([Event.stderrMsg "git not found, can't update code\n"], 1) :=
  ⟨rfl, (C5_tool_missing_messages cfgGitx envNoTools).1 rfl⟩

/-- C6: the artifact-client existence check runs on every run, even with
`--only-code` set: with git resolvable but svn not, the run fails fatally
with exit code 1 and the svn message, although the svn client would never
have been invoked (the trace shows no invocation at all). -/
theorem C6_svn_check_unconditional (cfg : Config) (env : Env)
    (honly : cfg.only_code = true)
    (hg : env.whichOk cfg.git_command = true)
    (hs : env.whichOk cfg.svn_command = false) :
    make_update cfg env =
      ([Event.stderrMsg "svn not found, can't update libraries\n"], 1) := by
  unfold make_update
  rw [make_update_run_svn_missing (by simp [hg]) hs]

theorem C6_svn_check_unconditional_witness :
    cfgOnlyCode.only_code = true
    ∧ make_update cfgOnlyCode envGitOnly =
        ([Event.stderrMsg "svn not found, can't update libraries\n"], 1) :=
  ⟨rfl, C6_svn_check_unconditional cfgOnlyCode envGitOnly rfl rfl rfl⟩

/-- C7: with `--only-code` set, every command invoked in any run (whatever
the libraries root contains and whatever the classification) is one of the
four git commands of the repository-update stage; consequently no
artifact-client operation — a call of the svn command with sub-command
checkout, cleanup, switch or update — ever appears in the trace. -/
theorem C7_only_code_no_svn (cfg : Config) (env : Env)
    (honly : cfg.only_code = true) :
    (∀ args, Event.call args ∈ (make_update cfg env).1 →
      args ∈ gitCalls cfg)
    ∧ ∀ op rest, (op = "checkout" ∨ op = "cleanup" ∨ op = "switch"
        ∨ op = "update") →
      Event.call (cfg.svn_command :: op :: rest) ∉ (make_update cfg env).1 := by
  have hstage : ∀ rv, StageSpec env (fun args => args ∈ gitCalls cfg)
      (fun t =>
        (if cfg.only_code = true then Except.ok t
         else libSync cfg env rv t).bind fun t => gitUpdate cfg env rv t) := by
    intro rv
    refine stageSpec_congr (fun t => ?_)
      (stageSpec_comp (stageSpec_ret env _)
        (stageSpec_gitUpdate cfg env rv _ (fun a ha => ha)))
    rw [if_pos honly]
    rfl
  have hin : ∀ args, Event.call args ∈ (make_update cfg env).1 →
      args ∈ gitCalls cfg := by
    rcases make_update_total cfg env _ hstage with ⟨_, _, hin⟩ | ⟨_, _, hin⟩ <;>
      exact hin
  refine ⟨hin, ?_⟩
  intro op rest hop hm
  have hmem := hin _ hm
  simp [gitCalls] at hmem
  rcases hmem with h | h | h | h <;> rcases hop with rfl | rfl | rfl | rfl <;>
    simp_all

theorem C7_only_code_no_svn_witness :
    cfgOnlyCode.only_code = true
    ∧ Event.call ["git", "pull", "--rebase"]
        ∈ (make_update cfgOnlyCode envAll).1
    ∧ ["git", "pull", "--rebase"] ∈ gitCalls cfgOnlyCode := by
  have hm : Event.call ["git", "pull", "--rebase"]
      ∈ (make_update cfgOnlyCode envAll).1 := by decide
  exact ⟨rfl, hm, (C7_only_code_no_svn cfgOnlyCode envAll rfl).1 _ hm⟩


/-- C8: the composed artifact URL is the fixed base URL joined with
`tags/blender-<version>-release` on an effective RELEASE classification
(truthy version) and with `trunk` on DEVELOPMENT classification (falsy
`release_version`), followed by the fixed `/lib/` subpath; in particular
for version "3.6" the URL ends with `tags/blender-3.6-release/lib/` and for
DEVELOPMENT it ends with `trunk/lib/`. -/
theorem C8_svn_url_composition :
    (∀ v : String, v ≠ "" →
      svn_url (some v) =
        svn_base_url ++ ("tags/blender-" ++ v ++ "-release") ++ "/lib/")
    ∧ (∀ release_version : Option String, truthyStr release_version = false →
      svn_url release_version = svn_base_url ++ "trunk" ++ "/lib/")
    ∧ (∃ p : String,
        svn_url (some "3.6") = p ++ "tags/blender-3.6-release/lib/")
    ∧ (∃ p : String, svn_url none = p ++ "trunk/lib/") := by
  refine ⟨?_, ?_,
    ⟨"https://svn.blender.org/svnroot/bf-blender/", by decide⟩,
    ⟨"https://svn.blender.org/svnroot/bf-blender/", by decide⟩⟩
  · intro v hv
    have ht : truthyStr (some v) = true := by
      simp [truthyStr, hv]
    simp [svn_url, svn_branch, ht]
  · intro release_version hrv
    simp [svn_url, svn_branch, hrv]

theorem C8_svn_url_composition_witness :
    ("3.6" ≠ ""
      ∧ svn_url (some "3.6") =
          svn_base_url ++ ("tags/blender-" ++ "3.6" ++ "-release") ++ "/lib/")
    ∧ truthyStr none = false
    ∧ svn_url none = svn_base_url ++ "trunk" ++ "/lib/" :=
  ⟨⟨by decide, C8_svn_url_composition.1 "3.6" (by decide)⟩, rfl,
    C8_svn_url_composition.2.1 none rfl⟩

/-- C9: if the libraries root is not a directory, the enumeration step is
skipped without error and without operations: the stage succeeds with just
its banner appended.  Moreover a whole run under that condition (tools
present, a branch obtained, every command succeeding) proceeds to the
repository-update stage — its banner is printed — and exits 0. -/
theorem C9_missing_lib_root (cfg : Config) (env : Env) (raw : String)
    (hdir : env.isdirPath lib_dirpath = false)
    (hgit : env.whichOk cfg.git_command = true)
    (hsvn : env.whichOk cfg.svn_command = true)
    (hbr : env.gitBranch = some raw)
    (hok : ∀ args, env.callOk args = true) :
    (∀ release_version t, libEnum cfg env release_version t =
      Except.ok (print_stage t "Updating Precompiled Libraries and Tests"))
    ∧ (make_update cfg env).2 = 0
    ∧ Event.stdoutLine "Updating Blender Git Repository and Submodules"
        ∈ (make_update cfg env).1 := by
  refine ⟨?_, ?_, ?_⟩
  · intro release_version t
    rw [libEnum_ok_trace cfg env release_version t hok]
    simp [hdir, print_stage]
  · rw [make_update_ok_trace cfg env raw hgit hsvn hbr hok]
  · rw [make_update_ok_trace cfg env raw hgit hsvn hbr hok]
    unfold fullOkTrace gitTailOps
    simp

theorem C9_missing_lib_root_witness :
    envNoLibRoot.isdirPath lib_dirpath = false
    ∧ (make_update cfgAll envNoLibRoot).2 = 0
    ∧ Event.stdoutLine "Updating Blender Git Repository and Submodules"
        ∈ (make_update cfgAll envNoLibRoot).1 := by
  have h := C9_missing_lib_root cfgAll envNoLibRoot "main" rfl rfl rfl rfl
    (fun _ => rfl)
  exact ⟨rfl, h.2.1, h.2.2⟩

/-- C10: on branch "blender-v-release" the regex matches with an empty
capture, which is falsy; so the run prints the confirmation line
"Using Release Blender v" yet otherwise behaves as DEVELOPMENT: the svn
switch uses the trunk URL and the two submodule-foreach steps run.  The
full trace of such a run (one tracked library directory `tests`, every
command succeeding, Linux platform) exhibits all three behaviours. -/
theorem C10_empty_version_edge :
    reSearchRelease "blender-v-release" = some ""
    ∧ truthyStr (reSearchRelease "blender-v-release") = false
    ∧ make_update cfgAll envEmptyVer =
      ([Event.checkOutput ["git", "rev-parse", "--abbrev-ref", "HEAD"],
        Event.stdoutLine "Using Release Blender v",
        Event.stdoutLine "",
        Event.stdoutLine "Updating Precompiled Libraries and Tests",
        Event.stdoutLine "",
        Event.call ["svn", "cleanup", "../lib/tests"],
        Event.call ["svn", "switch",
          "https://svn.blender.org/svnroot/bf-blender/trunk/lib/tests",
          "../lib/tests"],
        Event.call ["svn", "update", "../lib/tests"],
        Event.stdoutLine "",
        Event.stdoutLine "Updating Blender Git Repository and Submodules",
        Event.stdoutLine "",
        Event.call ["git", "pull", "--rebase"],
        Event.call ["git", "submodule", "update", "--init", "--recursive"],
        Event.call ["git", "submodule", "foreach", "git", "checkout",
          "master"],
        Event.call ["git", "submodule", "foreach", "git", "pull", "--rebase",
          "origin", "master"]], 0) :=
  ⟨by decide, by decide, by decide⟩


end MakeUpdate
